import Mathlib

/-!
Shallow embedding of the correlation core of the `ricochet` out-of-band
vulnerability scanner, together with proofs of the specification claims.

Each definition mirrors one Python function of the repository:
  * `ricochet/core/store.py`          — `InjectionStore` (modelled as a pure state)
  * `ricochet/server/http.py`         — `CallbackHandler`
  * `ricochet/server/dns.py`          — `DNSHandler._build_response`
  * `ricochet/injection/injector.py`  — `substitute_callback`, `Injector.inject_vector`
  * `ricochet/injection/rate_limiter.py` — `RateLimiter`
  * `ricochet/triggers/polling.py`    — `PollingStrategy`
  * `ricochet/output/finding.py`      — `Finding.severity`

Wall-clock and monotonic instants are modelled as rationals; byte strings as
`List Nat` (each entry one octet).
-/

namespace Ricochet

/-! ## Data model (core/store.py) -/

/-- `InjectionRecord` dataclass of `core/store.py`. -/
structure InjectionRecord where
  id : String
  target_url : String
  parameter : String
  payload : String
  timestamp : ℚ
  context : Option String
deriving DecidableEq, Repr

/-- `CallbackRecord` dataclass of `core/store.py`. -/
structure CallbackRecord where
  id : Nat
  correlation_id : String
  source_ip : String
  request_path : String
  headers : List (String × String)
  body : Option (List Nat)
  received_at : ℚ
deriving DecidableEq, Repr

/-- The two tables of the SQLite store, as a pure state.  `nextCallbackId`
models the `AUTOINCREMENT` primary key of the `callbacks` table. -/
structure StoreState where
  injections : List InjectionRecord
  callbacks : List CallbackRecord
  nextCallbackId : Nat
deriving DecidableEq, Repr

/-- `InjectionStore.record_injection`: a plain `INSERT` into `injections`. -/
def record_injection (s : StoreState) (r : InjectionRecord) : StoreState :=
  { s with injections := s.injections ++ [r] }

/-- `InjectionStore.get_injection`: `SELECT * FROM injections WHERE id = ?`,
first matching row or none. -/
def get_injection (s : StoreState) (correlation_id : String) : Option InjectionRecord :=
  s.injections.find? (fun r => r.id == correlation_id)

/-- `InjectionStore.record_callback`: checks that an injection row with the
given id exists (`SELECT 1 FROM injections WHERE id = ?`); if none, returns
`false` without inserting; otherwise inserts one callback row and returns
`true`.  `now` models `time.time()`. -/
def record_callback (s : StoreState) (correlation_id source_ip request_path : String)
    (headers : List (String × String)) (body : Option (List Nat)) (now : ℚ) :
    StoreState × Bool :=
  if s.injections.any (fun r => r.id == correlation_id) then
    ({ s with
        callbacks := s.callbacks ++
          [{ id := s.nextCallbackId
             correlation_id := correlation_id
             source_ip := source_ip
             request_path := request_path
             headers := headers
             body := body
             received_at := now }]
        nextCallbackId := s.nextCallbackId + 1 }, true)
  else
    (s, false)

/-- Referential integrity of the `callbacks` table: every stored callback
references an existing injection (the `FOREIGN KEY` of the schema). -/
def callbacksReferToInjections (s : StoreState) : Prop :=
  ∀ k ∈ s.callbacks, ∃ i ∈ s.injections, i.id = k.correlation_id

/-! ## HTTP callback server (server/http.py) -/

/-- The sixteen characters of the validation alphabet
`'0123456789abcdef'` used by both correlation-ID extractors. -/
def hexAlphabet : List Char := "0123456789abcdef".toList

/-- Python `str.split(sep)` for a one-character separator, on character
lists: `"".split('/') = ['']`, with empty pieces kept. -/
def splitChar (sep : Char) : List Char → List (List Char)
  | [] => [[]]
  | c :: cs =>
    if c == sep then [] :: splitChar sep cs
    else
      match splitChar sep cs with
      | [] => [[c]]
      | h :: t => (c :: h) :: t

/-- `CallbackHandler._extract_correlation_id`, applied to the URL path
component: split on `'/'`, keep the non-empty segments, take the last one,
and accept it only if it is exactly 16 characters, all from
`'0123456789abcdef'`. -/
def extract_correlation_id (path : String) : Option String :=
  let segments := (splitChar '/' path.toList).filter (fun s => !s.isEmpty)
  match segments.getLast? with
  | none => none
  | some candidate =>
    if candidate.length ≠ 16 then none
    else if !candidate.all (fun c => hexAlphabet.contains c) then none
    else some ⟨candidate⟩

/-- Serialization of the response the handler emits through
`send_response` / `send_header` / `end_headers` / `wfile.write`:
status line, the headers sent by the handler, a blank line, and the body. -/
def serializeResponse (status : Nat) (reason : String)
    (headers : List (String × String)) (body : String) : String :=
  "HTTP/1.1 " ++ toString status ++ " " ++ reason ++ "\r\n" ++
  String.join (headers.map (fun p => p.1 ++ ": " ++ p.2 ++ "\r\n")) ++
  "\r\n" ++ body

/-- `CallbackHandler._handle_callback`: extract the correlation ID from the
path; when one is present try to record the callback (the boolean result is
only logged); in every case answer `200 OK`, `Content-Type: text/plain`,
`Content-Length: 2`, body `OK`.  Every HTTP method (`do_GET`, `do_POST`,
`do_HEAD`, `do_PUT`, `do_DELETE`, `do_OPTIONS`, `do_PATCH`) delegates here,
differing only in the `body` argument. -/
def handle_callback (s : StoreState) (path source_ip : String)
    (headers : List (String × String)) (body : Option (List Nat)) (now : ℚ) :
    StoreState × String :=
  let s' :=
    match extract_correlation_id path with
    | some cid => (record_callback s cid source_ip path headers body now).1
    | none => s
  (s', serializeResponse 200 "OK"
        [("Content-Type", "text/plain"), ("Content-Length", "2")] "OK")

/-! ## Finding severity (output/finding.py) -/

/-- Python's `needle in haystack` on strings, character-list form. -/
def containsSub (haystack needle : List Char) : Bool :=
  match haystack with
  | [] => needle.isEmpty
  | _ :: t => needle.isPrefixOf haystack || containsSub t needle

/-- The `Finding` dataclass of `output/finding.py` (stored fields only). -/
structure Finding where
  correlation_id : String
  target_url : String
  parameter : String
  payload : String
  context : Option String
  injected_at : ℚ
  callback_id : Nat
  source_ip : String
  request_path : String
  callback_headers : List (String × String)
  callback_body : Option (List Nat)
  received_at : ℚ
  delay_seconds : ℚ
deriving Repr

/-- Body of the `Finding.severity` property, as a function of the
`context` field: lowercase the context and look for the substrings
`ssti`, `sqli`, `xss` in that order. -/
def severityOfContext (context : Option String) : String :=
  match context with
  | none => "info"
  | some ctx =>
    let l := ctx.toList.map Char.toLower
    if containsSub l "ssti".toList then "high"
    else if containsSub l "sqli".toList then "high"
    else if containsSub l "xss".toList then "medium"
    else "info"

/-- The `Finding.severity` property. -/
def Finding.severity (f : Finding) : String :=
  severityOfContext f.context

/-! ## Callback substitution (injection/injector.py) -/

/-- Case-insensitive "starts with" over character lists, the way
`re.IGNORECASE` compares a literal alternative against the scan position. -/
def startsWithCI : List Char → List Char → Bool
  | _, [] => true
  | [], _ :: _ => false
  | c :: cs, p :: ps => (c.toLower == p.toLower) && startsWithCI cs ps

/-- First alternative of `CALLBACK_PATTERN`: `{{CALLBACK}}`. -/
def pat1 : List Char := "{{CALLBACK}}".toList

/-- Second alternative of `CALLBACK_PATTERN`: `{{callback}}`. -/
def pat2 : List Char := "{{callback}}".toList

/-- Third alternative of `CALLBACK_PATTERN`: `{CALLBACK}`. -/
def pat3 : List Char := "{CALLBACK}".toList

/-- Fourth alternative of `CALLBACK_PATTERN`: `${CALLBACK}`. -/
def pat4 : List Char := "${CALLBACK}".toList

/-- The four alternatives of `CALLBACK_PATTERN`, in source order. -/
def placeholderAlternatives : List (List Char) :=
  [pat1, pat2, pat3, pat4]

/-- `CALLBACK_PATTERN` matches at the head of `l`: some alternative matches
there case-insensitively. -/
def matchesAt (l : List Char) : Bool :=
  startsWithCI l pat1 || startsWithCI l pat2 ||
  startsWithCI l pat3 || startsWithCI l pat4

/-- `CALLBACK_PATTERN` matches somewhere in `l` (Python `re.search` would
find a match). -/
def hasPlaceholder : List Char → Bool
  | [] => false
  | c :: cs => matchesAt (c :: cs) || hasPlaceholder cs

/-- `CALLBACK_PATTERN.sub full payload` on character lists: scan left to
right; at each position try the alternatives in source order; on a match
emit `full` and resume after the matched text, otherwise keep the character.
At any given position at most one alternative can match (their first two
characters differ pairwise), so alternative order only fixes the matched
length, 12 for the double-brace forms, 10 and 11 for the others. -/
def subPattern (full : List Char) : List Char → List Char
  | [] => []
  | c :: cs =>
    if startsWithCI (c :: cs) pat1 then
      full ++ subPattern full ((c :: cs).drop 12)
    else if startsWithCI (c :: cs) pat2 then
      full ++ subPattern full ((c :: cs).drop 12)
    else if startsWithCI (c :: cs) pat3 then
      full ++ subPattern full ((c :: cs).drop 10)
    else if startsWithCI (c :: cs) pat4 then
      full ++ subPattern full ((c :: cs).drop 11)
    else
      c :: subPattern full cs
termination_by l => l.length
decreasing_by
  all_goals simp [List.length_drop]
  all_goals omega

/-- Python `str.rstrip('/')` on character lists. -/
def rstripSlash (s : List Char) : List Char :=
  (s.reverse.dropWhile (fun c => c == '/')).reverse

/-- The `full_url` built by `substitute_callback`:
`callback_url.rstrip('/') + '/' + correlation_id`. -/
def fullCallbackUrl (callback_url correlation_id : String) : List Char :=
  rstripSlash callback_url.toList ++ '/' :: correlation_id.toList

/-- `substitute_callback(payload, callback_url, correlation_id)`. -/
def substitute_callback (payload callback_url correlation_id : String) : String :=
  ⟨subPattern (fullCallbackUrl callback_url correlation_id) payload.toList⟩

/-- `generate_correlation_id` returns `secrets.token_hex(8)`; the model keeps
only its length/alphabet contract, not the randomness. -/
def correlationIdWellFormed (cid : String) : Prop :=
  cid.length = 16 ∧ ∀ c ∈ cid.toList, c ∈ hexAlphabet

/-! ## Injector record construction (injection/injector.py, inject_vector) -/

/-- `InjectionVector` dataclass of `injection/vectors.py` (`location` is a
string literal among query/header/cookie/body/json). -/
structure InjectionVector where
  location : String
  name : String
  original_value : String
deriving DecidableEq, Repr

/-- The `InjectionRecord` that `Injector.inject_vector` constructs and
stores: id is the fresh correlation ID, parameter is
`f"{vector.location}:{vector.name}"`, payload is the substituted template,
and context is `f"Original value: {vector.original_value}"`. -/
def inject_vector_record (callback_url payload_template correlation_id url : String)
    (now : ℚ) (vector : InjectionVector) : InjectionRecord :=
  { id := correlation_id
    target_url := url
    parameter := vector.location ++ ":" ++ vector.name
    payload := substitute_callback payload_template callback_url correlation_id
    timestamp := now
    context := some ("Original value: " ++ vector.original_value) }

/-! ## Polling strategy (triggers/polling.py) -/

/-- `PollingConfig` dataclass. -/
structure PollingConfig where
  base_interval : ℚ
  max_interval : ℚ
  backoff_factor : ℚ
  reset_on_callback : Bool
deriving Repr

/-- `PollingStrategy.QUIET_THRESHOLD`. -/
def QUIET_THRESHOLD : Nat := 5

/-- Mutable state of a `PollingStrategy`. -/
structure PollingState where
  current_interval : ℚ
  quiet_polls : Nat
deriving Repr

/-- `PollingStrategy.__init__`. -/
def PollingState.init (config : PollingConfig) : PollingState :=
  { current_interval := config.base_interval, quiet_polls := 0 }

/-- `PollingStrategy.get_next_interval`: state transition plus returned
interval. -/
def get_next_interval (config : PollingConfig) (st : PollingState)
    (received_callback : Bool) : PollingState × ℚ :=
  if received_callback && config.reset_on_callback then
    ({ current_interval := config.base_interval, quiet_polls := 0 },
     config.base_interval)
  else
    let q := st.quiet_polls + 1
    if q > QUIET_THRESHOLD then
      let ni := min (st.current_interval * config.backoff_factor) config.max_interval
      ({ current_interval := ni, quiet_polls := q }, ni)
    else
      ({ current_interval := st.current_interval, quiet_polls := q },
       st.current_interval)

/-- Successive intervals returned by `get_next_interval` along a sequence of
poll outcomes. -/
def pollIntervals (config : PollingConfig) (st : PollingState) :
    List Bool → List ℚ
  | [] => []
  | b :: bs =>
    let r := get_next_interval config st b
    r.2 :: pollIntervals config r.1 bs

/-! ## Rate limiter (injection/rate_limiter.py) -/

/-- Mutable state of a `RateLimiter` (`_rate`, `_burst`, `_tokens`,
`_last_update`). -/
structure RateLimiterState where
  rate : ℚ
  burst : Int
  tokens : ℚ
  last_update : ℚ
deriving Repr

/-- `RateLimiter.__init__` at monotonic instant `t0`: rejects `rate ≤ 0` and
`burst < 1` with `ValueError`, otherwise starts with a full bucket. -/
def RateLimiter.init (rate : ℚ) (burst : Int) (t0 : ℚ) :
    Except String RateLimiterState :=
  if rate ≤ 0 then .error "rate must be positive"
  else if burst < 1 then .error "burst must be at least 1"
  else .ok { rate := rate, burst := burst, tokens := (burst : ℚ), last_update := t0 }

/-- `RateLimiter._refill` at monotonic instant `now`. -/
def RateLimiter.refill (s : RateLimiterState) (now : ℚ) : RateLimiterState :=
  { s with
      tokens := min (s.burst : ℚ) (s.tokens + (now - s.last_update) * s.rate)
      last_update := now }

/-- One pass of the `RateLimiter.acquire` loop body at instant `now`:
refill, then take a token if at least one is available.  A blocking
`acquire` is a sequence of such passes at non-decreasing instants. -/
def RateLimiter.acquireStep (s : RateLimiterState) (now : ℚ) :
    RateLimiterState × Bool :=
  let s' := RateLimiter.refill s now
  if 1 ≤ s'.tokens then ({ s' with tokens := s'.tokens - 1 }, true)
  else (s', false)

/-- One observable step of the limiter: either a bare refill (as in
`available_tokens`) or an `acquire` pass, each time-stamped. -/
inductive RLOp
  | refill (t : ℚ)
  | acquire (t : ℚ)
deriving Repr

/-- Timestamp of a step. -/
def RLOp.time : RLOp → ℚ
  | .refill t => t
  | .acquire t => t

/-- Run a sequence of limiter steps. -/
def RateLimiter.run (s : RateLimiterState) : List RLOp → RateLimiterState
  | [] => s
  | .refill t :: ops => RateLimiter.run (RateLimiter.refill s t) ops
  | .acquire t :: ops => RateLimiter.run (RateLimiter.acquireStep s t).1 ops

/-- The step times are non-decreasing starting from `t0` (monotonic clock). -/
def timesMonotone : ℚ → List RLOp → Prop
  | _, [] => True
  | t0, op :: ops => t0 ≤ op.time ∧ timesMonotone op.time ops

/-! ## DNS callback server (server/dns.py) -/

/-- `DNS_HEADER_SIZE`. -/
def DNS_HEADER_SIZE : Nat := 12

/-- `QTYPE_A`. -/
def QTYPE_A : Nat := 1

/-- `QCLASS_IN`. -/
def QCLASS_IN : Nat := 1

/-- `struct.pack('!H', n)`: two octets, big-endian. -/
def pack16 (n : Nat) : List Nat :=
  [n / 256 % 256, n % 256]

/-- `struct.pack('!L', n)`: four octets, big-endian. -/
def pack32 (n : Nat) : List Nat :=
  [n / 16777216 % 256, n / 65536 % 256, n / 256 % 256, n % 256]

/-- The loop of `DNSHandler._find_question_end`: advance `pos` over the
QNAME labels, stopping after a compression pointer (2 octets), a zero
length octet (1 octet), or the end of the packet.  `fuel` bounds the number
of iterations; since `pos` strictly increases while the loop runs only for
`pos < data.length`, a fuel of `data.length` never runs out before the
loop's own exit. -/
def findQuestionEndAux (data : List Nat) : Nat → Nat → Nat
  | 0, pos => pos
  | fuel + 1, pos =>
    if h : pos < data.length then
      let len := data.get ⟨pos, h⟩
      if len &&& 0xC0 == 0xC0 then pos + 2
      else if len == 0 then pos + 1
      else findQuestionEndAux data fuel (pos + 1 + len)
    else pos

/-- `DNSHandler._find_question_end`: position after the QNAME plus 4 octets
for QTYPE and QCLASS. -/
def find_question_end (data : List Nat) : Nat :=
  findQuestionEndAux data data.length DNS_HEADER_SIZE + 4

/-- Python truthiness of the `Optional[str]` QNAME inside `if qtype ==
QTYPE_A and qname:` — false for `None` and for the empty string. -/
def qnameTruthy : Option String → Bool
  | none => false
  | some s => !s.isEmpty

/-- `DNSHandler._build_response`: header with flags `0x8580`, the question
section copied from the query, and — only when `qtype == QTYPE_A` and the
name is present — one answer record (`0xC00C` pointer, TYPE A, CLASS IN,
TTL 60, RDLENGTH 4, RDATA `127.0.0.1`). -/
def build_response (txn_id : Nat) (query : List Nat) (qname : Option String)
    (qtype : Nat) : List Nat :=
  let flags := 0x8580
  if qtype == QTYPE_A && qnameTruthy qname then
    let header := pack16 txn_id ++ pack16 flags ++ pack16 1 ++ pack16 1 ++
      pack16 0 ++ pack16 0
    let question_end := find_question_end query
    let question := (query.drop DNS_HEADER_SIZE).take (question_end - DNS_HEADER_SIZE)
    let answer := pack16 0xC00C ++ pack16 QTYPE_A ++ pack16 QCLASS_IN ++
      pack32 60 ++ pack16 4 ++ [127, 0, 0, 1]
    header ++ question ++ answer
  else
    let header := pack16 txn_id ++ pack16 flags ++ pack16 1 ++ pack16 0 ++
      pack16 0 ++ pack16 0
    let question_end := find_question_end query
    let question := (query.drop DNS_HEADER_SIZE).take (question_end - DNS_HEADER_SIZE)
    header ++ question

/-! ## Theorems -/

/-- **C1.** `record_callback` returns `false` and leaves the store unchanged
iff no injection row with the given correlation id exists; when one exists it
inserts exactly one callback row referencing it and returns `true`; and both
`record_callback` and `record_injection` preserve the invariant that every
persisted callback references an existing injection. -/
theorem record_callback_spec :
    (∀ s cid ip path hs b now,
      ((record_callback s cid ip path hs b now).2 = false ∧
       (record_callback s cid ip path hs b now).1 = s) ↔
      ¬ ∃ i ∈ s.injections, i.id = cid) ∧
    (∀ s cid ip path hs b now, (∃ i ∈ s.injections, i.id = cid) →
      (record_callback s cid ip path hs b now).2 = true ∧
      (record_callback s cid ip path hs b now).1.injections = s.injections ∧
      ∃ k : CallbackRecord, k.correlation_id = cid ∧
        (record_callback s cid ip path hs b now).1.callbacks = s.callbacks ++ [k]) ∧
    (∀ s cid ip path hs b now, callbacksReferToInjections s →
      callbacksReferToInjections (record_callback s cid ip path hs b now).1) ∧
    (∀ s r, callbacksReferToInjections s →
      callbacksReferToInjections (record_injection s r)) := by
  refine ⟨?_, ?_, ?_, ?_⟩
  · intro s cid ip path hs b now
    by_cases h : s.injections.any (fun r => r.id == cid) = true
    · simp only [record_callback, if_pos h]
      rw [List.any_eq_true] at h
      constructor
      · rintro ⟨hfalse, -⟩
        cases hfalse
      · intro hno
        obtain ⟨i, hi, hid⟩ := h
        exact absurd ⟨i, hi, by simpa using hid⟩ hno
    · simp only [record_callback, if_neg h]
      rw [List.any_eq_true] at h
      push_neg at h
      constructor
      · rintro ⟨-, -⟩ ⟨i, hi, hid⟩
        exact absurd (by simpa using hid : (i.id == cid) = true) (h i hi)
      · intro _
        exact ⟨by simp, by simp⟩
  · intro s cid ip path hs b now hex
    have hany : s.injections.any (fun r => r.id == cid) = true := by
      rw [List.any_eq_true]
      obtain ⟨i, hi, hid⟩ := hex
      exact ⟨i, hi, by simpa using hid⟩
    simp only [record_callback, if_pos hany]
    refine ⟨by simp, by simp, ⟨_, ?_, rfl⟩⟩
    rfl
  · intro s cid ip path hs b now hinv
    by_cases h : s.injections.any (fun r => r.id == cid) = true
    · simp only [record_callback, if_pos h]
      intro k hk
      rcases List.mem_append.mp hk with hk | hk
      · exact hinv k hk
      · have hkeq : k.correlation_id = cid := by
          rcases List.mem_singleton.mp hk with rfl
          rfl
        rw [List.any_eq_true] at h
        obtain ⟨i, hi, hid⟩ := h
        exact ⟨i, hi, by rw [hkeq]; simpa using hid⟩
    · simp only [record_callback, if_neg h]
      exact hinv
  · intro s r hinv k hk
    obtain ⟨i, hi, hid⟩ := hinv k hk
    exact ⟨i, List.mem_append.mpr (Or.inl hi), hid⟩

/-- Witness for C1 at a concrete store: one injection `"a"`; recording a
callback for `"a"` succeeds while the reference invariant is preserved, and
recording for an unknown id is refused. -/
theorem record_callback_spec_witness :
    ((record_callback
        ⟨[{ id := "a", target_url := "u", parameter := "query:q",
            payload := "p", timestamp := 0, context := none }], [], 0⟩
        "a" "1.2.3.4" "/a" [] none 7).2 = true ∧
      (record_callback
        ⟨[{ id := "a", target_url := "u", parameter := "query:q",
            payload := "p", timestamp := 0, context := none }], [], 0⟩
        "a" "1.2.3.4" "/a" [] none 7).1.injections =
        [{ id := "a", target_url := "u", parameter := "query:q",
           payload := "p", timestamp := 0, context := none }] ∧
      ∃ k : CallbackRecord, k.correlation_id = "a" ∧
        (record_callback
          ⟨[{ id := "a", target_url := "u", parameter := "query:q",
              payload := "p", timestamp := 0, context := none }], [], 0⟩
          "a" "1.2.3.4" "/a" [] none 7).1.callbacks = [] ++ [k]) ∧
    ((record_callback (⟨[], [], 0⟩ : StoreState) "b" "1.2.3.4" "/b" [] none 7).2 = false ∧
      (record_callback (⟨[], [], 0⟩ : StoreState) "b" "1.2.3.4" "/b" [] none 7).1 =
        (⟨[], [], 0⟩ : StoreState)) := by
  constructor
  · exact record_callback_spec.2.1 _ "a" "1.2.3.4" "/a" [] none 7
      ⟨_, List.mem_singleton.mpr rfl, rfl⟩
  · exact (record_callback_spec.1 (⟨[], [], 0⟩ : StoreState)
      "b" "1.2.3.4" "/b" [] none 7).mpr (by simp)

/-- **C9.** Recording an injection whose id is fresh and then querying that
id returns the record unchanged, field by field; querying an id no stored
record carries returns none. -/
theorem record_then_get_injection :
    (∀ (s : StoreState) (r : InjectionRecord),
      (∀ i ∈ s.injections, i.id ≠ r.id) →
      get_injection (record_injection s r) r.id = some r) ∧
    (∀ (s : StoreState) (cid : String),
      (∀ i ∈ s.injections, i.id ≠ cid) →
      get_injection s cid = none) := by
  have hnone : ∀ (s : StoreState) (cid : String),
      (∀ i ∈ s.injections, i.id ≠ cid) → get_injection s cid = none := by
    intro s cid h
    rw [get_injection, List.find?_eq_none]
    intro i hi
    simpa using h i hi
  refine ⟨?_, hnone⟩
  intro s r h
  rw [get_injection, record_injection]
  rw [List.find?_append]
  have h1 : s.injections.find? (fun x => x.id == r.id) = none := by
    rw [List.find?_eq_none]
    intro i hi
    simpa using h i hi
  rw [h1]
  simp [List.find?]

/-- Witness for C9 at a concrete store and record. -/
theorem record_then_get_injection_witness :
    get_injection
      (record_injection (⟨[], [], 0⟩ : StoreState)
        { id := "deadbeefdeadbeef", target_url := "http://t/", parameter := "query:q",
          payload := "x", timestamp := 3, context := some "sqli" })
      "deadbeefdeadbeef" =
      some { id := "deadbeefdeadbeef", target_url := "http://t/", parameter := "query:q",
             payload := "x", timestamp := 3, context := some "sqli" } ∧
    get_injection (⟨[], [], 0⟩ : StoreState) "0000000000000000" = none := by
  constructor
  · exact record_then_get_injection.1 _ _ (by simp)
  · exact record_then_get_injection.2 _ _ (by simp)

/-- **C2.** The callback handler's response is the fixed byte string
`HTTP/1.1 200 OK\r\nContent-Type: text/plain\r\nContent-Length: 2\r\n\r\nOK`
for every request, and in particular it is identical across any two stores —
whether or not the extracted correlation ID matches a stored injection. -/
theorem handle_callback_response_constant :
    (∀ (s : StoreState) (path ip : String) (hs : List (String × String))
       (b : Option (List Nat)) (now : ℚ),
      (handle_callback s path ip hs b now).2 =
        "HTTP/1.1 200 OK\r\nContent-Type: text/plain\r\nContent-Length: 2\r\n\r\nOK") ∧
    (∀ (s₁ s₂ : StoreState) (path ip : String) (hs : List (String × String))
       (b : Option (List Nat)) (now : ℚ),
      (handle_callback s₁ path ip hs b now).2 =
        (handle_callback s₂ path ip hs b now).2) := by
  constructor
  · intro s path ip hs b now
    rfl
  · intro s₁ s₂ path ip hs b now
    rfl

/-- **C3.** The extractor returns `some c` exactly when `c` is the last
non-empty `'/'`-separated segment of the path, is 16 characters long, and
consists only of the characters `0-9` and `a-f`; in every other case —
no non-empty segment, wrong length, uppercase or non-hex characters —
it returns `none`. -/
theorem extract_correlation_id_spec :
    ∀ (path c : String),
      extract_correlation_id path = some c ↔
        (((splitChar '/' path.toList).filter (fun s => !s.isEmpty)).getLast? =
          some c.toList ∧
         c.length = 16 ∧
         c.toList.all (fun ch => hexAlphabet.contains ch) = true) := by
  intro path c
  rw [extract_correlation_id]
  cases hlast : ((splitChar '/' path.toList).filter (fun s => !s.isEmpty)).getLast? with
  | none => simp
  | some cand =>
    simp only
    by_cases h16 : cand.length = 16
    · rw [if_neg (by simpa using h16)]
      by_cases hhex : cand.all (fun ch => hexAlphabet.contains ch) = true
      · rw [if_neg (by rw [hhex]; decide)]
        constructor
        · rintro h
          cases h
          exact ⟨rfl, h16, hhex⟩
        · rintro ⟨hc, -, -⟩
          rw [Option.some_inj] at hc
          rw [Option.some_inj]
          cases c
          cases hc
          rfl
      · rw [if_pos (by simpa using hhex)]
        constructor
        · rintro h
          cases h
        · rintro ⟨hc, -, hx⟩
          rw [Option.some_inj] at hc
          cases hc
          exact absurd hx hhex
    · rw [if_pos (by simpa using h16)]
      constructor
      · rintro h
        cases h
      · rintro ⟨hc, h, -⟩
        rw [Option.some_inj] at hc
        cases hc
        exact absurd h h16

/-- **C6.** Severity of a finding: `high` iff the lowercased context
contains `ssti` or `sqli`; otherwise `medium` iff it contains `xss`;
otherwise `info` (also when the context is absent); a context containing
both `sqli` and `xss` yields `high`; and severity always lies in
`{info, low, medium, high}`. -/
theorem finding_severity_spec :
    (∀ f : Finding, f.context = none → f.severity = "info") ∧
    (∀ (f : Finding) (ctx : String), f.context = some ctx →
      ((containsSub (ctx.toList.map Char.toLower) "ssti".toList ||
        containsSub (ctx.toList.map Char.toLower) "sqli".toList) = true →
        f.severity = "high") ∧
      ((containsSub (ctx.toList.map Char.toLower) "ssti".toList ||
        containsSub (ctx.toList.map Char.toLower) "sqli".toList) = false →
        containsSub (ctx.toList.map Char.toLower) "xss".toList = true →
        f.severity = "medium") ∧
      ((containsSub (ctx.toList.map Char.toLower) "ssti".toList ||
        containsSub (ctx.toList.map Char.toLower) "sqli".toList) = false →
        containsSub (ctx.toList.map Char.toLower) "xss".toList = false →
        f.severity = "info")) ∧
    severityOfContext (some "sqli and xss") = "high" ∧
    (∀ f : Finding, f.severity ∈ ["info", "low", "medium", "high"]) := by
  refine ⟨?_, ?_, by decide, ?_⟩
  · intro f h
    rw [Finding.severity, h]
    rfl
  · intro f ctx h
    rw [Finding.severity, h]
    simp only [severityOfContext]
    refine ⟨?_, ?_, ?_⟩
    · intro hs
      rcases Bool.or_eq_true _ _ ▸ hs with h1 | h2
      · rw [if_pos h1]
      · by_cases h1 : containsSub (ctx.toList.map Char.toLower) "ssti".toList = true
        · rw [if_pos h1]
        · rw [if_neg h1, if_pos h2]
    · intro hs hx
      rcases Bool.or_eq_false_iff.mp hs with ⟨h1, h2⟩
      rw [if_neg (by simpa using h1), if_neg (by simpa using h2), if_pos hx]
    · intro hs hx
      rcases Bool.or_eq_false_iff.mp hs with ⟨h1, h2⟩
      rw [if_neg (by simpa using h1), if_neg (by simpa using h2), if_neg (by simpa using hx)]
  · intro f
    rw [Finding.severity]
    cases hc : f.context with
    | none => simp [severityOfContext]
    | some ctx =>
      simp only [severityOfContext]
      split_ifs <;> simp

/-- Witness for C6: a finding whose context is `"SQLi via q"` is rated
`high`; one with context `"reflected XSS"` is rated `medium`; one with no
context is rated `info`. -/
theorem finding_severity_spec_witness :
    ({ correlation_id := "c", target_url := "u", parameter := "query:q",
       payload := "p", context := some "SQLi via q", injected_at := 0,
       callback_id := 1, source_ip := "i", request_path := "/",
       callback_headers := [], callback_body := none, received_at := 0,
       delay_seconds := 0 } : Finding).severity = "high" ∧
    ({ correlation_id := "c", target_url := "u", parameter := "query:q",
       payload := "p", context := some "reflected XSS", injected_at := 0,
       callback_id := 1, source_ip := "i", request_path := "/",
       callback_headers := [], callback_body := none, received_at := 0,
       delay_seconds := 0 } : Finding).severity = "medium" ∧
    ({ correlation_id := "c", target_url := "u", parameter := "query:q",
       payload := "p", context := none, injected_at := 0,
       callback_id := 1, source_ip := "i", request_path := "/",
       callback_headers := [], callback_body := none, received_at := 0,
       delay_seconds := 0 } : Finding).severity = "info" := by
  refine ⟨?_, ?_, ?_⟩
  · exact (finding_severity_spec.2.1 _ "SQLi via q" rfl).1 (by decide)
  · exact (finding_severity_spec.2.1 _ "reflected XSS" rfl).2.1 (by decide) (by decide)
  · exact finding_severity_spec.1 _ rfl

/-- The polling configuration of the C5 scenario:
`base=1, max=8, backoff=2.0, reset_on_callback=true`. -/
def pollingScenarioConfig : PollingConfig :=
  { base_interval := 1, max_interval := 8, backoff_factor := 2,
    reset_on_callback := true }

/-- **C5.** With `reset_on_callback` true, a callback resets the interval to
`base_interval` and the quiet counter to 0; a quiet poll increments the
counter, backing off to `min(interval × backoff_factor, max_interval)` only
once the counter exceeds the threshold 5; and with `base=1, max=8,
backoff=2` the quiet-poll intervals run 1, 1, 1, 1, 1, 2, 4, 8, 8, 8 and a
subsequent callback resets to 1. -/
theorem get_next_interval_spec :
    (∀ (config : PollingConfig) (st : PollingState),
      config.reset_on_callback = true →
      get_next_interval config st true =
        ({ current_interval := config.base_interval, quiet_polls := 0 },
         config.base_interval)) ∧
    (∀ (config : PollingConfig) (st : PollingState),
      st.quiet_polls + 1 ≤ QUIET_THRESHOLD →
      get_next_interval config st false =
        ({ current_interval := st.current_interval,
           quiet_polls := st.quiet_polls + 1 }, st.current_interval)) ∧
    (∀ (config : PollingConfig) (st : PollingState),
      st.quiet_polls + 1 > QUIET_THRESHOLD →
      get_next_interval config st false =
        ({ current_interval :=
             min (st.current_interval * config.backoff_factor) config.max_interval,
           quiet_polls := st.quiet_polls + 1 },
         min (st.current_interval * config.backoff_factor) config.max_interval)) ∧
    pollIntervals pollingScenarioConfig (PollingState.init pollingScenarioConfig)
        (List.replicate 10 false ++ [true]) =
      [1, 1, 1, 1, 1, 2, 4, 8, 8, 8, 1] := by
  refine ⟨?_, ?_, ?_, by
    norm_num [pollIntervals, get_next_interval, PollingState.init,
      pollingScenarioConfig, QUIET_THRESHOLD, List.replicate, min_def]⟩
  · intro config st h
    rw [get_next_interval]
    rw [if_pos (by simp [h])]
  · intro config st h
    rw [get_next_interval]
    rw [if_neg (by simp)]
    simp only
    rw [if_neg (by omega)]
  · intro config st h
    rw [get_next_interval]
    rw [if_neg (by simp)]
    simp only
    rw [if_pos h]

/-- Witness for C5 at concrete states: a callback resets; a 3rd quiet poll
keeps the interval; a 6th quiet poll doubles it. -/
theorem get_next_interval_spec_witness :
    get_next_interval pollingScenarioConfig ⟨4, 2⟩ true = (⟨1, 0⟩, 1) ∧
    get_next_interval pollingScenarioConfig ⟨1, 2⟩ false = (⟨1, 3⟩, 1) ∧
    get_next_interval pollingScenarioConfig ⟨2, 6⟩ false = (⟨4, 7⟩, 4) := by
  refine ⟨?_, ?_, ?_⟩
  · exact get_next_interval_spec.1 pollingScenarioConfig ⟨4, 2⟩ rfl
  · have h := get_next_interval_spec.2.1 pollingScenarioConfig ⟨1, 2⟩ (by decide)
    rw [h]
  · have h := get_next_interval_spec.2.2.1 pollingScenarioConfig ⟨2, 6⟩ (by decide)
    rw [h]
    norm_num [pollingScenarioConfig, min_def]

/-- **C7.** A rate limiter built with `rate > 0` and `burst ≥ 1` starts with
a full bucket (`tokens = burst`), the constructor rejects `rate ≤ 0` and
`burst < 1`, and along any sequence of refill/acquire steps at
non-decreasing monotonic instants the token count never exceeds `burst`. -/
theorem rate_limiter_spec :
    (∀ (rate : ℚ) (burst : Int) (t0 : ℚ), rate ≤ 0 ∨ burst < 1 →
      ∃ e, RateLimiter.init rate burst t0 = .error e) ∧
    (∀ (rate : ℚ) (burst : Int) (t0 : ℚ), 0 < rate → 1 ≤ burst →
      RateLimiter.init rate burst t0 =
        .ok { rate := rate, burst := burst, tokens := (burst : ℚ), last_update := t0 }) ∧
    (∀ (rate : ℚ) (burst : Int) (t0 : ℚ) (s : RateLimiterState),
      RateLimiter.init rate burst t0 = .ok s → s.tokens = (s.burst : ℚ)) ∧
    (∀ (rate : ℚ) (burst : Int) (t0 : ℚ) (s : RateLimiterState) (ops : List RLOp),
      RateLimiter.init rate burst t0 = .ok s → timesMonotone t0 ops →
      (RateLimiter.run s ops).tokens ≤ ((RateLimiter.run s ops).burst : ℚ)) := by
  have hrunle : ∀ (ops : List RLOp) (s : RateLimiterState),
      s.tokens ≤ (s.burst : ℚ) →
      (RateLimiter.run s ops).tokens ≤ ((RateLimiter.run s ops).burst : ℚ) := by
    intro ops
    induction ops with
    | nil => intro s h; exact h
    | cons op ops ih =>
      intro s h
      cases op with
      | refill t =>
        rw [RateLimiter.run]
        exact ih _ (min_le_left _ _)
      | acquire t =>
        rw [RateLimiter.run]
        rw [RateLimiter.acquireStep]
        by_cases h1 : (1 : ℚ) ≤ (RateLimiter.refill s t).tokens
        · rw [if_pos h1]
          refine ih _ ?_
          have : (RateLimiter.refill s t).tokens ≤ ((RateLimiter.refill s t).burst : ℚ) :=
            min_le_left _ _
          simp only [RateLimiter.refill] at this ⊢
          linarith
        · rw [if_neg h1]
          exact ih _ (min_le_left _ _)
  have hok : ∀ (rate : ℚ) (burst : Int) (t0 : ℚ), 0 < rate → 1 ≤ burst →
      RateLimiter.init rate burst t0 =
        .ok { rate := rate, burst := burst, tokens := (burst : ℚ), last_update := t0 } := by
    intro rate burst t0 h1 h2
    rw [RateLimiter.init, if_neg (by linarith), if_neg (by omega)]
  refine ⟨?_, hok, ?_, ?_⟩
  · intro rate burst t0 h
    rw [RateLimiter.init]
    by_cases h1 : rate ≤ 0
    · rw [if_pos h1]
      exact ⟨_, rfl⟩
    · rw [if_neg h1, if_pos (h.resolve_left h1)]
      exact ⟨_, rfl⟩
  · intro rate burst t0 s h
    rw [RateLimiter.init] at h
    by_cases h1 : rate ≤ 0
    · rw [if_pos h1] at h; cases h
    · rw [if_neg h1] at h
      by_cases h2 : burst < 1
      · rw [if_pos h2] at h; cases h
      · rw [if_neg h2] at h
        cases h
        rfl
  · intro rate burst t0 s ops h _
    rw [RateLimiter.init] at h
    by_cases h1 : rate ≤ 0
    · rw [if_pos h1] at h; cases h
    · rw [if_neg h1] at h
      by_cases h2 : burst < 1
      · rw [if_pos h2] at h; cases h
      · rw [if_neg h2] at h
        cases h
        exact hrunle ops _ (le_refl _)

/-- Witness for C7: a limiter with `rate = 2`, `burst = 3` starts full,
stays at or below 3 tokens across an acquire at `t = 0` and a refill at
`t = 5`, and the constructor rejects `rate = 0` and `burst = 0`. -/
theorem rate_limiter_spec_witness :
    RateLimiter.init 2 3 0 =
      .ok { rate := 2, burst := 3, tokens := 3, last_update := 0 } ∧
    (RateLimiter.run { rate := 2, burst := 3, tokens := 3, last_update := 0 }
        [RLOp.acquire 0, RLOp.refill 5]).tokens ≤
      ((RateLimiter.run { rate := 2, burst := 3, tokens := 3, last_update := 0 }
        [RLOp.acquire 0, RLOp.refill 5]).burst : ℚ) ∧
    (∃ e, RateLimiter.init 0 3 0 = .error e) ∧
    (∃ e, RateLimiter.init 2 0 0 = .error e) := by
  refine ⟨?_, ?_, ?_, ?_⟩
  · exact rate_limiter_spec.2.1 2 3 0 (by norm_num) (by norm_num)
  · exact rate_limiter_spec.2.2.2 2 3 0 _ [RLOp.acquire 0, RLOp.refill 5]
      (rate_limiter_spec.2.1 2 3 0 (by norm_num) (by norm_num))
      (by exact ⟨le_refl 0, by norm_num [timesMonotone, RLOp.time], trivial⟩)
  · exact rate_limiter_spec.1 0 3 0 (Or.inl (by norm_num))
  · exact rate_limiter_spec.1 2 0 0 (Or.inr (by norm_num))

/-- **C10.** The record `Injector.inject_vector` stores always has
`parameter = "<location>:<name>"` and
`context = "Original value: " ++ original_value` — never absent and fully
determined by the vector — so the severity later derived from it depends
only on the vector's original value, not on any caller-supplied
vulnerability class. -/
theorem inject_vector_record_spec :
    ∀ (callback_url payload_template correlation_id url : String) (now : ℚ)
      (v : InjectionVector),
      (inject_vector_record callback_url payload_template correlation_id url now v).parameter =
        v.location ++ ":" ++ v.name ∧
      (inject_vector_record callback_url payload_template correlation_id url now v).context =
        some ("Original value: " ++ v.original_value) ∧
      (inject_vector_record callback_url payload_template correlation_id url now v).context ≠
        none ∧
      (∀ v' : InjectionVector, v'.original_value = v.original_value →
        severityOfContext
            (inject_vector_record callback_url payload_template correlation_id url now v').context =
          severityOfContext
            (inject_vector_record callback_url payload_template correlation_id url now v).context) := by
  intro cb tpl cid url now v
  refine ⟨rfl, rfl, by simp [inject_vector_record], ?_⟩
  intro v' hv
  simp only [inject_vector_record, hv]

/-- Witness for C10 at a concrete vector: `header:Referer` with original
value `"sqli test"`; two vectors sharing the original value yield the same
derived severity. -/
theorem inject_vector_record_spec_witness :
    (inject_vector_record "http://cb" "{{CALLBACK}}" "0123456789abcdef" "http://t/" 0
        ⟨"header", "Referer", "sqli test"⟩).parameter = "header:Referer" ∧
    (inject_vector_record "http://cb" "{{CALLBACK}}" "0123456789abcdef" "http://t/" 0
        ⟨"header", "Referer", "sqli test"⟩).context = some "Original value: sqli test" ∧
    severityOfContext
        (inject_vector_record "http://cb" "{{CALLBACK}}" "0123456789abcdef" "http://t/" 0
          ⟨"query", "q", "sqli test"⟩).context =
      severityOfContext
        (inject_vector_record "http://cb" "{{CALLBACK}}" "0123456789abcdef" "http://t/" 0
          ⟨"header", "Referer", "sqli test"⟩).context := by
  have h := inject_vector_record_spec "http://cb" "{{CALLBACK}}" "0123456789abcdef"
    "http://t/" 0 ⟨"header", "Referer", "sqli test"⟩
  exact ⟨h.1, h.2.1, h.2.2.2 ⟨"query", "q", "sqli test"⟩ rfl⟩

/-- **C8.** For QTYPE `A` with a parseable (non-empty) QNAME, the DNS
response is: header with the echoed transaction ID, flags `0x8580`,
QDCOUNT 1, ANCOUNT 1, the question copied from the query, and exactly one
answer record `C0 0C | TYPE A | CLASS IN | TTL 60 | RDLENGTH 4 |
127.0.0.1`; for any other QTYPE or a missing name, the header announces
ANCOUNT 0 and no answer record follows the question. -/
theorem build_response_spec :
    ∀ (txn_id : Nat) (query : List Nat) (qname : Option String) (qtype : Nat),
      (qtype = QTYPE_A → qnameTruthy qname = true →
        build_response txn_id query qname qtype =
          pack16 txn_id ++ [0x85, 0x80, 0, 1, 0, 1, 0, 0, 0, 0] ++
          (query.drop DNS_HEADER_SIZE).take (find_question_end query - DNS_HEADER_SIZE) ++
          [0xC0, 0x0C, 0, 1, 0, 1, 0, 0, 0, 60, 0, 4, 127, 0, 0, 1]) ∧
      ((qtype ≠ QTYPE_A ∨ qnameTruthy qname = false) →
        build_response txn_id query qname qtype =
          pack16 txn_id ++ [0x85, 0x80, 0, 1, 0, 0, 0, 0, 0, 0] ++
          (query.drop DNS_HEADER_SIZE).take (find_question_end query - DNS_HEADER_SIZE)) := by
  intro txn_id query qname qtype
  constructor
  · intro hq hn
    rw [build_response, if_pos (by simp [hq, hn])]
    simp only [pack16, pack32, QTYPE_A, QCLASS_IN, List.append_assoc,
      List.cons_append, List.nil_append]
  · intro h
    rw [build_response, if_neg (by
      rcases h with h | h
      · simp [QTYPE_A] at h ⊢
        intro hq
        exact absurd hq h
      · simp [h])]
    simp only [pack16, List.append_assoc, List.cons_append, List.nil_append]

/-- Witness for C8 on a concrete query for `a.example` (QTYPE A) and the
same query asked with QTYPE TXT (16): one answer record versus none. -/
theorem build_response_spec_witness :
    build_response 0xABCD
        ([0xAB, 0xCD, 1, 0, 0, 1, 0, 0, 0, 0, 0, 0] ++
         [1, 97, 7, 101, 120, 97, 109, 112, 108, 101, 0, 0, 1, 0, 1])
        (some "a.example") QTYPE_A =
      [0xAB, 0xCD, 0x85, 0x80, 0, 1, 0, 1, 0, 0, 0, 0] ++
      [1, 97, 7, 101, 120, 97, 109, 112, 108, 101, 0, 0, 1, 0, 1] ++
      [0xC0, 0x0C, 0, 1, 0, 1, 0, 0, 0, 60, 0, 4, 127, 0, 0, 1] ∧
    build_response 0xABCD
        ([0xAB, 0xCD, 1, 0, 0, 1, 0, 0, 0, 0, 0, 0] ++
         [1, 97, 7, 101, 120, 97, 109, 112, 108, 101, 0, 0, 16, 0, 1])
        (some "a.example") 16 =
      [0xAB, 0xCD, 0x85, 0x80, 0, 1, 0, 0, 0, 0, 0, 0] ++
      [1, 97, 7, 101, 120, 97, 109, 112, 108, 101, 0, 0, 16, 0, 1] := by
  constructor
  · have h := ((build_response_spec 0xABCD
      ([0xAB, 0xCD, 1, 0, 0, 1, 0, 0, 0, 0, 0, 0] ++
       [1, 97, 7, 101, 120, 97, 109, 112, 108, 101, 0, 0, 1, 0, 1])
      (some "a.example") QTYPE_A).1 rfl (by decide))
    rw [h]
    decide
  · have h := ((build_response_spec 0xABCD
      ([0xAB, 0xCD, 1, 0, 0, 1, 0, 0, 0, 0, 0, 0] ++
       [1, 97, 7, 101, 120, 97, 109, 112, 108, 101, 0, 0, 16, 0, 1])
      (some "a.example") 16).2 (Or.inl (by decide)))
    rw [h]
    decide

/-- `startsWithCI` accepts the empty pattern. -/
theorem startsWithCI_nil (l : List Char) : startsWithCI l [] = true := by
  cases l <;> rfl

/-- Case-insensitive comparison succeeds on a prefix whose lowercase image
agrees with the pattern's. -/
theorem startsWithCI_of_map_toLower :
    ∀ (q p rest : List Char), p.map Char.toLower = q.map Char.toLower →
      startsWithCI (p ++ rest) q = true := by
  intro q
  induction q with
  | nil => intro p rest _; exact startsWithCI_nil _
  | cons qh qt ih =>
    intro p rest h
    cases p with
    | nil => cases h
    | cons ph pt =>
      simp only [List.map_cons, List.cons.injEq] at h
      rw [List.cons_append, startsWithCI]
      rw [h.1]
      simp [ih pt rest h.2]

/-- Case-insensitive comparison fails on a first-character mismatch. -/
theorem startsWithCI_false_head (a b : Char) (l p : List Char)
    (h : (a.toLower == b.toLower) = false) :
    startsWithCI (a :: l) (b :: p) = false := by
  rw [startsWithCI, h]
  rfl

/-- Case-insensitive comparison fails on a second-character mismatch. -/
theorem startsWithCI_false_second (a b a' b' : Char) (l p : List Char)
    (h : (a'.toLower == b'.toLower) = false) :
    startsWithCI (a :: a' :: l) (b :: b' :: p) = false := by
  rw [startsWithCI, startsWithCI, h]
  simp

/-- At the start of any placeholder occurrence, `subPattern` emits `full`
and resumes right after the placeholder, whichever of the four alternatives
occurs. -/
theorem subPattern_cons_form (full suf form : List Char)
    (hform : form ∈ placeholderAlternatives) :
    subPattern full (form ++ suf) = full ++ subPattern full suf := by
  simp only [placeholderAlternatives, List.mem_cons, List.not_mem_nil,
    or_false] at hform
  rcases hform with h | h | h | h
  · subst h
    have c1 : startsWithCI ('{' :: '{' :: ("CALLBACK\x7d\x7d".toList ++ suf)) pat1 = true :=
      startsWithCI_of_map_toLower pat1 pat1 suf rfl
    rw [show pat1 ++ suf = '{' :: '{' :: ("CALLBACK\x7d\x7d".toList ++ suf) from rfl,
      subPattern, if_pos c1]
    rfl
  · subst h
    have c1 : startsWithCI ('{' :: '{' :: ("callback\x7d\x7d".toList ++ suf)) pat1 = true :=
      startsWithCI_of_map_toLower pat1 pat2 suf (by decide)
    rw [show pat2 ++ suf = '{' :: '{' :: ("callback\x7d\x7d".toList ++ suf) from rfl,
      subPattern, if_pos c1]
    rfl
  · subst h
    have c1 : startsWithCI ('{' :: 'C' :: ("ALLBACK\x7d".toList ++ suf)) pat1 = false :=
      startsWithCI_false_second '{' '{' 'C' '{' _ _ (by decide)
    have c2 : startsWithCI ('{' :: 'C' :: ("ALLBACK\x7d".toList ++ suf)) pat2 = false :=
      startsWithCI_false_second '{' '{' 'C' '{' _ _ (by decide)
    have c3 : startsWithCI ('{' :: 'C' :: ("ALLBACK\x7d".toList ++ suf)) pat3 = true :=
      startsWithCI_of_map_toLower pat3 pat3 suf rfl
    rw [show pat3 ++ suf = '{' :: 'C' :: ("ALLBACK\x7d".toList ++ suf) from rfl,
      subPattern, if_neg (by rw [c1]; exact Bool.false_ne_true),
      if_neg (by rw [c2]; exact Bool.false_ne_true), if_pos c3]
    rfl
  · subst h
    have c1 : startsWithCI ('$' :: '{' :: ("CALLBACK\x7d".toList ++ suf)) pat1 = false :=
      startsWithCI_false_head '$' '{' _ _ (by decide)
    have c2 : startsWithCI ('$' :: '{' :: ("CALLBACK\x7d".toList ++ suf)) pat2 = false :=
      startsWithCI_false_head '$' '{' _ _ (by decide)
    have c3 : startsWithCI ('$' :: '{' :: ("CALLBACK\x7d".toList ++ suf)) pat3 = false :=
      startsWithCI_false_head '$' '{' _ _ (by decide)
    have c4 : startsWithCI ('$' :: '{' :: ("CALLBACK\x7d".toList ++ suf)) pat4 = true :=
      startsWithCI_of_map_toLower pat4 pat4 suf rfl
    rw [show pat4 ++ suf = '$' :: '{' :: ("CALLBACK\x7d".toList ++ suf) from rfl,
      subPattern, if_neg (by rw [c1]; exact Bool.false_ne_true),
      if_neg (by rw [c2]; exact Bool.false_ne_true),
      if_neg (by rw [c3]; exact Bool.false_ne_true), if_pos c4]
    rfl

/-- Where no alternative matches anywhere, `subPattern` is the identity. -/
theorem subPattern_no_match (full : List Char) :
    ∀ l : List Char, hasPlaceholder l = false → subPattern full l = l := by
  intro l
  induction l with
  | nil => intro _; simp [subPattern]
  | cons c cs ih =>
    intro h
    rw [hasPlaceholder] at h
    rcases Bool.or_eq_false_iff.mp h with ⟨hm, ht⟩
    rw [matchesAt] at hm
    rcases Bool.or_eq_false_iff.mp hm with ⟨hm, h4⟩
    rcases Bool.or_eq_false_iff.mp hm with ⟨hm, h3⟩
    rcases Bool.or_eq_false_iff.mp hm with ⟨h1, h2⟩
    rw [subPattern, if_neg (by simp [h1]), if_neg (by simp [h2]),
      if_neg (by simp [h3]), if_neg (by simp [h4]), ih ht]

/-- A placeholder occurrence after a prefix in which no alternative matches
is replaced by `full`, and scanning resumes after it. -/
theorem subPattern_replace (full form : List Char)
    (hform : form ∈ placeholderAlternatives) :
    ∀ (pre suf : List Char),
      (∀ i < pre.length, matchesAt ((pre ++ form ++ suf).drop i) = false) →
      subPattern full (pre ++ form ++ suf) =
        pre ++ full ++ subPattern full suf := by
  intro pre
  induction pre with
  | nil =>
    intro suf _
    simpa using subPattern_cons_form full suf form hform
  | cons c pre' ih =>
    intro suf h
    have h0 : matchesAt (c :: (pre' ++ form ++ suf)) = false := by
      have := h 0 (by simp)
      simpa using this
    rw [matchesAt] at h0
    rcases Bool.or_eq_false_iff.mp h0 with ⟨hm, h4⟩
    rcases Bool.or_eq_false_iff.mp hm with ⟨hm, h3⟩
    rcases Bool.or_eq_false_iff.mp hm with ⟨h1, h2⟩
    have hstep : ∀ i < pre'.length,
        matchesAt ((pre' ++ form ++ suf).drop i) = false := by
      intro i hi
      have := h (i + 1) (by simpa using Nat.succ_lt_succ hi)
      simpa using this
    calc subPattern full ((c :: pre') ++ form ++ suf)
        = subPattern full (c :: (pre' ++ form ++ suf)) := by
          rw [show ((c :: pre') ++ form ++ suf : List Char) =
            c :: (pre' ++ form ++ suf) from by simp]
      _ = c :: subPattern full (pre' ++ form ++ suf) := by
          rw [subPattern, if_neg (by rw [h1]; exact Bool.false_ne_true),
            if_neg (by rw [h2]; exact Bool.false_ne_true),
            if_neg (by rw [h3]; exact Bool.false_ne_true),
            if_neg (by rw [h4]; exact Bool.false_ne_true)]
      _ = c :: (pre' ++ full ++ subPattern full suf) := by
          rw [ih suf hstep]
      _ = (c :: pre') ++ full ++ subPattern full suf := by
          simp

/-- **C4.** `substitute_callback` returns a template with no placeholder
verbatim; it replaces each occurrence of any of the four placeholder forms
(matched case-insensitively) with the callback base stripped of trailing
slashes, a `/`, and the correlation ID; the four forms substitute to the
identical value; and the substituted value is exactly
`rstrip(base, '/') ++ "/" ++ correlation_id`. -/
theorem substitute_callback_spec :
    (∀ (t u c : String), hasPlaceholder t.toList = false →
      substitute_callback t u c = t) ∧
    (∀ form ∈ placeholderAlternatives,
      ∀ (pre suf : List Char) (u c : String),
        (∀ i < pre.length, matchesAt ((pre ++ form ++ suf).drop i) = false) →
        (substitute_callback ⟨pre ++ form ++ suf⟩ u c).toList =
          pre ++ fullCallbackUrl u c ++ subPattern (fullCallbackUrl u c) suf) ∧
    (∀ (u c : String),
      substitute_callback "{{CALLBACK}}" u c = substitute_callback "{{callback}}" u c ∧
      substitute_callback "{{callback}}" u c = substitute_callback "{CALLBACK}" u c ∧
      substitute_callback "{CALLBACK}" u c = substitute_callback "${CALLBACK}" u c ∧
      (substitute_callback "{{CALLBACK}}" u c).toList = fullCallbackUrl u c) ∧
    (∀ (u c : String), fullCallbackUrl u c = rstripSlash u.toList ++ '/' :: c.toList) := by
  have hsingle : ∀ form ∈ placeholderAlternatives, ∀ (u c : String),
      subPattern (fullCallbackUrl u c) form = fullCallbackUrl u c := by
    intro form hform u c
    have h := subPattern_cons_form (fullCallbackUrl u c) [] form hform
    rw [List.append_nil] at h
    rw [h]
    simp [subPattern]
  refine ⟨?_, ?_, ?_, fun _ _ => rfl⟩
  · intro t u c h
    show (⟨subPattern (fullCallbackUrl u c) t.toList⟩ : String) = t
    rw [subPattern_no_match _ _ h]
    cases t
    rfl
  · intro form hform pre suf u c h
    show subPattern (fullCallbackUrl u c) (pre ++ form ++ suf) = _
    exact subPattern_replace _ form hform pre suf h
  · intro u c
    have e1 := hsingle pat1 (by simp [placeholderAlternatives]) u c
    have e2 := hsingle pat2 (by simp [placeholderAlternatives]) u c
    have e3 := hsingle pat3 (by simp [placeholderAlternatives]) u c
    have e4 := hsingle pat4 (by simp [placeholderAlternatives]) u c
    refine ⟨?_, ?_, ?_, ?_⟩
    · show (⟨subPattern (fullCallbackUrl u c) pat1⟩ : String) =
        ⟨subPattern (fullCallbackUrl u c) pat2⟩
      rw [e1, e2]
    · show (⟨subPattern (fullCallbackUrl u c) pat2⟩ : String) =
        ⟨subPattern (fullCallbackUrl u c) pat3⟩
      rw [e2, e3]
    · show (⟨subPattern (fullCallbackUrl u c) pat3⟩ : String) =
        ⟨subPattern (fullCallbackUrl u c) pat4⟩
      rw [e3, e4]
    · show subPattern (fullCallbackUrl u c) pat1 = fullCallbackUrl u c
      exact e1

/-- Witness for C4: a template with no placeholder is unchanged; a
`{CALLBACK}` occurrence between inert text is substituted in place; and the
double-brace upper- and lower-case forms substitute identically. -/
theorem substitute_callback_spec_witness :
    substitute_callback "no placeholder here" "http://cb" "0123456789abcdef" =
      "no placeholder here" ∧
    (substitute_callback ⟨"ab".toList ++ pat3 ++ "cd".toList⟩
        "http://cb/" "0123456789abcdef").toList =
      "ab".toList ++ fullCallbackUrl "http://cb/" "0123456789abcdef" ++
        subPattern (fullCallbackUrl "http://cb/" "0123456789abcdef") "cd".toList ∧
    substitute_callback "{{CALLBACK}}" "http://cb" "0123456789abcdef" =
      substitute_callback "{{callback}}" "http://cb" "0123456789abcdef" := by
  refine ⟨?_, ?_, ?_⟩
  · exact substitute_callback_spec.1 _ _ _ (by decide)
  · exact substitute_callback_spec.2.1 pat3 (by decide)
      "ab".toList "cd".toList _ _ (by decide)
  · exact (substitute_callback_spec.2.2.1 "http://cb" "0123456789abcdef").1

end Ricochet
